import Mathlib

/-!
Verification of the resilient telemetry and advisory pipeline of the
Linguistic Arbitrage Engine.

The development shallowly embeds the two source files:
* `src/services/GeminiDeepThinkService.ts` — the resilient advisory client
  (`executeDeepThought`), the report generator (`generateStrategicAnalysis`)
  and the latency probe;
* the application component (`src/unnamed/part_000`) — session state,
  `handleTranscriptUpdate` (metric-window push), `handleManualTransmit`
  (message routing), `addSyntheticResponse` and `handleScenarioChange`.

JavaScript strings are embedded as `List Char`, numbers as `ℚ` (the
quantities involved are exact: counts, sums, divisions by a length),
timestamps as `Nat`.  The remote network call and the host built-in
`JSON.parse` are nondeterministic/foreign, so they enter as explicit
function parameters; everything the repository itself computes is a
concrete Lean definition mirrored from the source.
-/

/-! ## Data model

The shapes below mirror the fields the two source files read and write
(`types.ts` itself is not part of the covered sources, but every field
used by the code appears literally in it). -/

/-- Origin tag of a dialogue message, `'OPERATOR' | 'SYNTHETIC_AGENT'`. -/
inductive MessageOrigin where
  | OPERATOR
  | SYNTHETIC_AGENT
deriving DecidableEq, Repr

/-- One transcript entry, source `DialogueTransmissionVector`:
`{id, origin, payload, timestamp}`. -/
structure DialogueTransmissionVector where
  id : List Char
  origin : MessageOrigin
  payload : List Char
  timestamp : Nat
deriving DecidableEq, Repr

/-- One metric sample, source `NegotiationEntropyMetric`, with exactly the
fields constructed in `handleTranscriptUpdate`. -/
structure NegotiationEntropyMetric where
  timestamp : Nat
  verbalVelocity : ℚ
  hesitationMarkers : ℚ
  levenshteinDelta : ℚ
  spectralIntensity : ℚ
  sentimentValence : ℚ
  confidenceScore : ℚ
  logicDensity : ℚ
  aggressionIndex : ℚ
  clarityScore : ℚ
deriving DecidableEq, Repr

/-- Scenario record, source `SimulationScenarioMatrix`, with the fields the
application reads (`id`, `designation`, `targetRhetoricPattern`,
`difficultyLevel`). -/
structure SimulationScenarioMatrix where
  id : List Char
  designation : List Char
  targetRhetoricPattern : List Char
  difficultyLevel : List Char
deriving DecidableEq, Repr

/-- Cognitive-load indicator, source `CognitiveLoadState`; the component
only ever sets `IDLE` and `THINKING`. -/
inductive CognitiveLoadState where
  | IDLE
  | THINKING
deriving DecidableEq, Repr

/-! ## Metric window (`handleTranscriptUpdate`, window update)

The source pushes a sample with
`setEntropyMetrics(prev => [...prev.slice(-19), sample])`:
keep the last 19 samples of the previous window, then append the new
one, so the window holds at most 20 samples. -/

/-- Capacity K of the metric window: `prev.slice(-19)` plus the new
sample gives at most 20 entries. -/
def windowCapacity : Nat := 20

/-- Window update from `handleTranscriptUpdate`:
`[...prev.slice(-19), sample]`.  `prev.slice(-19)` keeps the last 19
elements (all of them when there are fewer), i.e. drops
`prev.length - 19` from the front. -/
def pushMetric (prev : List NegotiationEntropyMetric)
    (sample : NegotiationEntropyMetric) : List NegotiationEntropyMetric :=
  prev.drop (prev.length - 19) ++ [sample]

/-- Window contents after pushing a whole sequence of samples, starting
from the empty window the session begins with. -/
def pushAll (samples : List NegotiationEntropyMetric) :
    List NegotiationEntropyMetric :=
  samples.foldl pushMetric []

/-! ## Report aggregation (`generateStrategicAnalysis`, step 1)

The report generator pre-processes the metric window with
`metrics.reduce((acc, m) => acc + m.confidenceScore, 0) / (metrics.length || 1)`,
`Math.max(...metrics.map(m => m.verbalVelocity))` and the analogous mean of
`hesitationMarkers`.  `Math.max` of no arguments is `-Infinity`, modelled
as `⊥` in `WithBot ℚ`. -/

/-- Mean confidence: `reduce`-sum divided by `metrics.length || 1`
(JavaScript `||` turns the falsy length 0 into 1). -/
def avgConfidence (metrics : List NegotiationEntropyMetric) : ℚ :=
  (metrics.foldl (fun acc m => acc + m.confidenceScore) 0) /
    (if metrics.length = 0 then 1 else (metrics.length : ℚ))

/-- Mean hesitation markers, same shape as `avgConfidence`. -/
def avgHesitation (metrics : List NegotiationEntropyMetric) : ℚ :=
  (metrics.foldl (fun acc m => acc + m.hesitationMarkers) 0) /
    (if metrics.length = 0 then 1 else (metrics.length : ℚ))

/-- Peak verbal velocity: `Math.max(...metrics.map(m => m.verbalVelocity))`.
`Math.max()` with an empty argument list is `-Infinity`, i.e. `⊥`. -/
def maxVelocity (metrics : List NegotiationEntropyMetric) : WithBot ℚ :=
  metrics.foldl (fun acc m => max acc (m.verbalVelocity : WithBot ℚ)) ⊥

/-! ## Resilient advisory client (`executeDeepThought`)

The remote call is a foreign effect; it enters as
`call : Nat → Except Unit (List Char)` giving, for each attempt index,
either the thrown error or the response text (`.ok []` models an
empty/undefined `response.text`).  The loop counts attempts, records each
backoff wait, and mirrors the source control flow exactly. -/

/-- Marker string returned after exhausting all retry attempts. -/
def breakerMsg : List Char :=
  "CIRCUIT_BREAKER_ACTIVATED: UNABLE_TO_PROCESS_THOUGHT_PATTERN".toList

/-- Marker string returned when the response text is empty/undefined
(`response.text || "DATA_CORRUPTION_EMPTY_RESPONSE"`). -/
def emptyRespMsg : List Char := "DATA_CORRUPTION_EMPTY_RESPONSE".toList

/-- String returned by the unreachable line after the `while` loop. -/
def systemFailureMsg : List Char := "SYSTEM_FAILURE".toList

/-- Observable outcome of `executeDeepThought`: how many attempts ran, the
backoff waits (milliseconds, in order), and the returned string. -/
structure DeepThoughtOutcome where
  attemptsMade : Nat
  delaysMs : List Nat
  result : List Char
deriving DecidableEq, Repr

/-- Body of the `while (attempts < MAX_RETRY_ATTEMPTS)` loop of
`executeDeepThought`, entered with the current value of `attempts`.
On a thrown error the counter is incremented; if it reaches the
threshold the breaker marker is returned, otherwise the loop waits
`Math.pow(2, attempts) * 1000` ms (with the already incremented
`attempts`) and retries. -/
def executeDeepThoughtGo (call : Nat → Except Unit (List Char))
    (maxRetry : Nat) (attempts : Nat) : DeepThoughtOutcome :=
  if h : attempts < maxRetry then
    match call attempts with
    | .ok t => ⟨attempts + 1, [], if t = [] then emptyRespMsg else t⟩
    | .error _ =>
      if h2 : maxRetry ≤ attempts + 1 then
        ⟨attempts + 1, [], breakerMsg⟩
      else
        let rest := executeDeepThoughtGo call maxRetry (attempts + 1)
        ⟨rest.attemptsMade, 2 ^ (attempts + 1) * 1000 :: rest.delaysMs,
          rest.result⟩
  else ⟨attempts, [], systemFailureMsg⟩
termination_by maxRetry - attempts
decreasing_by omega

/-- Source `executeDeepThought`: the loop starting at `attempts = 0`,
with `maxRetry` standing for `CircuitBreakerThresholds.MAX_RETRY_ATTEMPTS`. -/
def executeDeepThought (call : Nat → Except Unit (List Char))
    (maxRetry : Nat) : DeepThoughtOutcome :=
  executeDeepThoughtGo call maxRetry 0

/-! ## Theorems for the retry loop -/

lemma executeDeepThoughtGo_allFail (call : Nat → Except Unit (List Char))
    (hfail : ∀ n, call n = .error ()) (M : Nat) :
    ∀ (d a : Nat), a + d + 1 = M →
      executeDeepThoughtGo call M a =
        ⟨M, (List.range d).map (fun i => 2 ^ (a + 1 + i) * 1000),
          breakerMsg⟩ := by
  intro d
  induction d with
  | zero =>
    intro a ha
    rw [executeDeepThoughtGo]
    have h1 : a < M := by omega
    have h2 : M ≤ a + 1 := by omega
    simp [h1, h2, hfail a]
    omega
  | succ d ih =>
    intro a ha
    have h1 : a < M := by omega
    have h2 : ¬ M ≤ a + 1 := by omega
    rw [executeDeepThoughtGo, dif_pos h1]
    simp only [hfail a]
    rw [dif_neg h2, ih (a + 1) (by omega)]
    simp only [List.range_succ_eq_map, List.map_cons, List.map_map,
      DeepThoughtOutcome.mk.injEq, List.cons.injEq, Nat.add_zero, true_and,
      and_true, Function.comp]
    refine List.map_congr_left ?_
    intro i _
    have he : a + 1 + 1 + i = a + 1 + (i + 1) := by omega
    rw [he]
    rfl

/-- C1: for a remote call that always fails, `executeDeepThought` performs
exactly `M` attempts (`M` the `MAX_RETRY_ATTEMPTS` threshold, at least 1),
waits `2^1, 2^2, …, 2^(M-1)` seconds (recorded in milliseconds) between
consecutive attempts, and returns the breaker-open marker string instead
of throwing (the embedding is total: every branch returns a string). -/
theorem executeDeepThought_always_fails
    (call : Nat → Except Unit (List Char)) (M : Nat)
    (hM : 1 ≤ M) (hfail : ∀ n, call n = .error ()) :
    (executeDeepThought call M).attemptsMade = M ∧
    (executeDeepThought call M).delaysMs =
      (List.range (M - 1)).map (fun i => 2 ^ (i + 1) * 1000) ∧
    (executeDeepThought call M).result = breakerMsg := by
  have h := executeDeepThoughtGo_allFail call hfail M (M - 1) 0 (by omega)
  rw [executeDeepThought, h]
  refine ⟨rfl, ?_, rfl⟩
  refine List.map_congr_left ?_
  intro i _
  have he : 0 + 1 + i = i + 1 := by omega
  rw [he]

/-- Witness for C1 at the concrete threshold `M = 3` and a call that
always throws. -/
theorem executeDeepThought_always_fails_witness :
    (executeDeepThought (fun _ => .error ()) 3).attemptsMade = 3 ∧
    (executeDeepThought (fun _ => .error ()) 3).delaysMs =
      (List.range 2).map (fun i => 2 ^ (i + 1) * 1000) ∧
    (executeDeepThought (fun _ => .error ()) 3).result = breakerMsg :=
  executeDeepThought_always_fails (fun _ => .error ()) 3 (by omega)
    (fun _ => rfl)

/-- C7: for a remote call that throws on the first attempt and succeeds on
the second with a nonempty text `t`, and a threshold `M ≥ 2`,
`executeDeepThought` performs exactly 2 attempts and returns `t`. -/
theorem executeDeepThought_second_attempt
    (call : Nat → Except Unit (List Char)) (M : Nat) (t : List Char)
    (hM : 2 ≤ M) (h0 : call 0 = .error ()) (h1 : call 1 = .ok t)
    (ht : t ≠ []) :
    (executeDeepThought call M).attemptsMade = 2 ∧
    (executeDeepThought call M).result = t := by
  have hM0 : 0 < M := by omega
  have hM1 : 1 < M := by omega
  have hno : ¬ M ≤ 0 + 1 := by omega
  rw [executeDeepThought, executeDeepThoughtGo, dif_pos hM0]
  simp only [h0]
  rw [dif_neg hno]
  rw [executeDeepThoughtGo]
  simp only [Nat.zero_add]
  rw [dif_pos hM1]
  simp only [h1, if_neg ht]
  exact ⟨trivial, trivial⟩

/-- Witness call for C7: throws on attempt index 0, succeeds afterwards. -/
def secondAttemptCall : Nat → Except Unit (List Char) :=
  fun n => if n = 0 then .error () else .ok "COUNTER_MOVE".toList

/-- Witness for C7 at `M = 3` and response text `COUNTER_MOVE`. -/
theorem executeDeepThought_second_attempt_witness :
    (executeDeepThought secondAttemptCall 3).attemptsMade = 2 ∧
    (executeDeepThought secondAttemptCall 3).result =
      "COUNTER_MOVE".toList :=
  executeDeepThought_second_attempt secondAttemptCall 3
    "COUNTER_MOVE".toList (by omega) rfl rfl (by decide)

/-! ## Theorems for the metric window -/

lemma pushAll_eq_drop (l : List NegotiationEntropyMetric) :
    pushAll l = l.drop (l.length - windowCapacity) := by
  induction l using List.reverseRecOn with
  | nil => rfl
  | append_singleton l x ih =>
    rw [pushAll, List.foldl_append]
    simp only [List.foldl_cons, List.foldl_nil]
    rw [show (List.foldl pushMetric [] l) = pushAll l from rfl, ih]
    simp only [pushMetric, List.length_drop, List.drop_drop,
      List.length_append, List.length_cons, List.length_nil, windowCapacity]
    rw [List.drop_append_of_le_length (by omega)]
    have he : l.length - 20 + (l.length - (l.length - 20) - 19) =
        l.length + (0 + 1) - 20 := by omega
    rw [he]

/-- C2: the metric window never exceeds the capacity K = 20 of
`[...prev.slice(-19), sample]`; after any sequence of pushes the window
holds exactly the last K samples in insertion order (FIFO eviction), and
after K+1 pushes the oldest of the original samples is gone while the
newest K remain in order. -/
theorem metricWindow_invariant (l : List NegotiationEntropyMetric) :
    (pushAll l).length ≤ windowCapacity ∧
    pushAll l = l.drop (l.length - windowCapacity) ∧
    (∀ m rest, l = m :: rest → rest.length = windowCapacity → m ∉ rest →
      pushAll l = rest ∧ m ∉ pushAll l) := by
  have hd := pushAll_eq_drop l
  refine ⟨?_, hd, ?_⟩
  · rw [hd]
    simp only [List.length_drop, windowCapacity]
    omega
  · rintro m rest rfl hlen hmem
    have h1 : (m :: rest).length - windowCapacity = 1 := by
      simp only [List.length_cons, windowCapacity] at hlen ⊢
      omega
    rw [hd, h1]
    exact ⟨rfl, hmem⟩

/-- Sample with a given timestamp and zeroed metrics, for the witness. -/
def sampleAt (n : Nat) : NegotiationEntropyMetric :=
  ⟨n, 0, 0, 0, 0, 0, 0, 0, 0, 0⟩

/-- Witness sequence for C2: K + 1 = 21 pairwise distinct samples. -/
def witnessSamples : List NegotiationEntropyMetric :=
  (List.range 21).map sampleAt

/-- Witness for C2: pushing 21 distinct samples leaves exactly the newest
20 in order, without the oldest. -/
theorem metricWindow_invariant_witness :
    pushAll witnessSamples =
      (List.range 20).map (fun i => sampleAt (i + 1)) ∧
    sampleAt 0 ∉ pushAll witnessSamples :=
  (metricWindow_invariant witnessSamples).2.2 (sampleAt 0)
    ((List.range 20).map (fun i => sampleAt (i + 1)))
    (by rfl) (by rfl) (by decide)

/-- C4 (divergence witness): aggregation over the empty metric window.
The two mean statistics are the neutral 0 as specified, but the peak
verbal velocity is `Math.max()` of no arguments, i.e. `-Infinity` (`⊥`),
not the specified neutral 0. -/
theorem emptyWindow_aggregates :
    avgConfidence [] = 0 ∧ avgHesitation [] = 0 ∧
    maxVelocity [] = ⊥ ∧ (⊥ : WithBot ℚ) ≠ (0 : WithBot ℚ) := by
  refine ⟨?_, ?_, rfl, ?_⟩
  · simp [avgConfidence]
  · simp [avgHesitation]
  · simp

/-! ## Session state and message handling

The application component keeps the session in React state hooks:
`transmissionVectors` (the transcript), `entropyMetrics` (the metric
window), `activeScenario`, `cognitiveState`, and the connection facts
`isConnectionActive`, `deepThinkServiceRef.current` (modelled as the flag
`hasDeepThinkService`) and `connectionError`.  The metric-extractor
utilities (`computeLevenshteinDeviation` and friends), the remote call and
the scenario library are collaborators outside these two files, so they
enter the handlers as function parameters; `crypto.randomUUID()` and
`Date.now()` are nondeterministic host calls and enter as explicit
arguments. -/

/-- Session state owned by the application component. -/
structure SessionState where
  transmissionVectors : List DialogueTransmissionVector
  entropyMetrics : List NegotiationEntropyMetric
  activeScenario : SimulationScenarioMatrix
  cognitiveState : CognitiveLoadState
  isConnectionActive : Bool
  hasDeepThinkService : Bool
  connectionError : Option (List Char)
deriving DecidableEq, Repr

/-- JavaScript truthiness of `!connectionError`: `null`/`undefined` and
the empty string are falsy. -/
def connectionErrorInactive : Option (List Char) → Bool
  | none => true
  | some s => s.isEmpty

/-- Source `handleTranscriptUpdate`: builds one metric sample from the
fragment (via the extractor utilities, abstracted as `extract`, which
reads the active scenario's target pattern and ambient acoustic state)
and pushes it onto the window with `[...prev.slice(-19), sample]`. -/
def handleTranscriptUpdate
    (extract : List Char → SimulationScenarioMatrix → NegotiationEntropyMetric)
    (st : SessionState) (text : List Char) : SessionState :=
  { st with entropyMetrics :=
      pushMetric st.entropyMetrics (extract text st.activeScenario) }

/-- Source `addSyntheticResponse`: appends the response with origin
`SYNTHETIC_AGENT` and returns the cognitive state to `IDLE`. -/
def addSyntheticResponse (uuid : List Char) (now : Nat)
    (st : SessionState) (payload : List Char) : SessionState :=
  { st with
      transmissionVectors :=
        st.transmissionVectors ++ [⟨uuid, .SYNTHETIC_AGENT, payload, now⟩],
      cognitiveState := .IDLE }

/-- Which response path served the message, with its observable
arguments: the live branch awaits
`executeDeepThought(input, transmissionVectors)`, the fallback branch runs
`processOfflineSimulation(activeScenario.id, input)` inside a
`setTimeout(…, 1500)`. -/
inductive RouteEffect where
  | liveCall (prompt : List Char) (history : List DialogueTransmissionVector)
  | offlineSim (scenarioId : List Char) (inputText : List Char)
      (delayMs : Nat)
deriving DecidableEq, Repr

/-- Source `handleManualTransmit`, run to completion (the awaited live
response or the fired timeout included): appends the operator message,
sets `THINKING`, extracts metrics from the input text, then branches on
`isConnectionActive && deepThinkServiceRef.current && !connectionError`,
and finally appends the synthetic response.  `deepThought` abstracts the
awaited remote exchange and `simulate` the scenario library's
`processOfflineSimulation`. -/
def handleManualTransmit
    (extract : List Char → SimulationScenarioMatrix → NegotiationEntropyMetric)
    (deepThought : List Char → List DialogueTransmissionVector → List Char)
    (simulate : List Char → List Char → List Char)
    (msgUuid respUuid : List Char) (now : Nat)
    (st : SessionState) (input : List Char) : SessionState × RouteEffect :=
  let newVector : DialogueTransmissionVector := ⟨msgUuid, .OPERATOR, input, now⟩
  let st1 := { st with
      transmissionVectors := st.transmissionVectors ++ [newVector],
      cognitiveState := .THINKING }
  let st2 := handleTranscriptUpdate extract st1 input
  if st.isConnectionActive && st.hasDeepThinkService &&
      connectionErrorInactive st.connectionError then
    let response := deepThought input st.transmissionVectors
    (addSyntheticResponse respUuid now st2 response,
      .liveCall input st.transmissionVectors)
  else
    let simResponse := simulate st.activeScenario.id input
    (addSyntheticResponse respUuid now st2 simResponse,
      .offlineSim st.activeScenario.id input 1500)

/-- Source `handleScenarioChange`: looks the selected id up in the
scenario library (collaborator `getScenarioById`); on a hit it installs
the scenario and clears the transcript and the metric window, otherwise
nothing happens. -/
def handleScenarioChange
    (getScenarioById : List Char → Option SimulationScenarioMatrix)
    (st : SessionState) (newId : List Char) : SessionState :=
  match getScenarioById newId with
  | some s => { st with
      activeScenario := s,
      transmissionVectors := [],
      entropyMetrics := [] }
  | none => st

/-! ## Theorems for message routing and scenario changes -/

/-- C6: routing of an incoming user message.  The credentials hypothesis
is modelled from the spec: with missing credentials the live channel is
never initialized, so an active connection implies the deep-think service
exists.  When the connection is live and the error flag inactive, the
message goes to the advisory client with the message text and the entire
pre-existing transcript as context; otherwise it is synthesized by the
offline simulator with exactly the input text and the active scenario id,
after the fixed 1500 ms simulated latency. -/
theorem handleManualTransmit_routing
    (extract : List Char → SimulationScenarioMatrix → NegotiationEntropyMetric)
    (deepThought : List Char → List DialogueTransmissionVector → List Char)
    (simulate : List Char → List Char → List Char)
    (msgUuid respUuid : List Char) (now : Nat)
    (st : SessionState) (input : List Char)
    (hcred : st.isConnectionActive = true → st.hasDeepThinkService = true) :
    ((st.isConnectionActive = true ∧
        connectionErrorInactive st.connectionError = true) →
      (handleManualTransmit extract deepThought simulate msgUuid respUuid
          now st input).2 = .liveCall input st.transmissionVectors) ∧
    (¬ (st.isConnectionActive = true ∧
        connectionErrorInactive st.connectionError = true) →
      (handleManualTransmit extract deepThought simulate msgUuid respUuid
          now st input).2 =
        .offlineSim st.activeScenario.id input 1500) := by
  constructor
  · rintro ⟨hlive, herr⟩
    have hs := hcred hlive
    simp [handleManualTransmit, hlive, herr, hs]
  · intro hn
    have hb : ¬ (st.isConnectionActive && st.hasDeepThinkService &&
        connectionErrorInactive st.connectionError) = true := by
      intro hb
      rw [Bool.and_eq_true, Bool.and_eq_true] at hb
      exact hn ⟨hb.1.1, hb.2⟩
    simp [handleManualTransmit, hb]

/-- Concrete scenario used by the routing witnesses. -/
def hostileScenario : SimulationScenarioMatrix :=
  ⟨"HOSTILE_TAKEOVER-03".toList, "HOSTILE TAKEOVER".toList,
    "I refuse your terms".toList, "HOSTILE_TAKEOVER".toList⟩

/-- Concrete live session state used by the C6 witness. -/
def liveState : SessionState :=
  ⟨[], [], hostileScenario, .IDLE, true, true, none⟩

/-- Witness for C6: in the live state the message is routed to the
advisory client with the (empty) prior transcript as context. -/
theorem handleManualTransmit_routing_witness :
    (handleManualTransmit (fun _ _ => sampleAt 0)
        (fun _ _ => "MOVE".toList) (fun _ _ => "SIM".toList)
        "u1".toList "u2".toList 7 liveState "hello".toList).2 =
      .liveCall "hello".toList [] :=
  (handleManualTransmit_routing (fun _ _ => sampleAt 0)
      (fun _ _ => "MOVE".toList) (fun _ _ => "SIM".toList)
      "u1".toList "u2".toList 7 liveState "hello".toList
      (fun _ => rfl)).1 ⟨rfl, rfl⟩

/-- C8: whatever the route, handling one user message appends exactly one
metric sample to the window — extracted from the user's input text, not
from the synthetic reply — and appends the response to the transcript
with origin `SYNTHETIC_AGENT`, right after the operator message itself. -/
theorem handleManualTransmit_metrics_and_transcript
    (extract : List Char → SimulationScenarioMatrix → NegotiationEntropyMetric)
    (deepThought : List Char → List DialogueTransmissionVector → List Char)
    (simulate : List Char → List Char → List Char)
    (msgUuid respUuid : List Char) (now : Nat)
    (st : SessionState) (input : List Char) :
    ∃ response,
      (handleManualTransmit extract deepThought simulate msgUuid respUuid
          now st input).1.entropyMetrics =
        pushMetric st.entropyMetrics (extract input st.activeScenario) ∧
      (handleManualTransmit extract deepThought simulate msgUuid respUuid
          now st input).1.transmissionVectors =
        st.transmissionVectors ++
          [⟨msgUuid, .OPERATOR, input, now⟩,
           ⟨respUuid, .SYNTHETIC_AGENT, response, now⟩] := by
  by_cases hc : (st.isConnectionActive && st.hasDeepThinkService &&
      connectionErrorInactive st.connectionError) = true
  · exact ⟨deepThought input st.transmissionVectors,
      by simp [handleManualTransmit, handleTranscriptUpdate,
        addSyntheticResponse, hc]⟩
  · exact ⟨simulate st.activeScenario.id input,
      by simp [handleManualTransmit, handleTranscriptUpdate,
        addSyntheticResponse, hc]⟩

/-- C9: a scenario change whose id resolves in the scenario library
installs the new scenario and leaves the transcript and the metric window
empty, whatever the prior session contents. -/
theorem handleScenarioChange_resets
    (getScenarioById : List Char → Option SimulationScenarioMatrix)
    (st : SessionState) (newId : List Char) (s : SimulationScenarioMatrix)
    (h : getScenarioById newId = some s) :
    (handleScenarioChange getScenarioById st newId).transmissionVectors
        = [] ∧
    (handleScenarioChange getScenarioById st newId).entropyMetrics = [] ∧
    (handleScenarioChange getScenarioById st newId).activeScenario = s := by
  simp [handleScenarioChange, h]

/-- Session state with a nonempty transcript and window, for the
scenario-change witnesses. -/
def populatedState : SessionState :=
  ⟨[⟨"m1".toList, .OPERATOR, "I refuse your terms".toList, 5⟩],
    [sampleAt 5], hostileScenario, .IDLE, false, false, none⟩

/-- Witness for C9 on a populated session. -/
theorem handleScenarioChange_resets_witness :
    (handleScenarioChange (fun _ => some hostileScenario) populatedState
        "HOSTILE_TAKEOVER-03".toList).transmissionVectors = [] ∧
    (handleScenarioChange (fun _ => some hostileScenario) populatedState
        "HOSTILE_TAKEOVER-03".toList).entropyMetrics = [] ∧
    (handleScenarioChange (fun _ => some hostileScenario) populatedState
        "HOSTILE_TAKEOVER-03".toList).activeScenario = hostileScenario :=
  handleScenarioChange_resets (fun _ => some hostileScenario)
    populatedState "HOSTILE_TAKEOVER-03".toList hostileScenario rfl

/-- C10: a scenario change whose id the library does not know is a
complete no-op — the state, in particular the active scenario, the
transcript and the metric window, is returned unchanged. -/
theorem handleScenarioChange_unknown_noop
    (getScenarioById : List Char → Option SimulationScenarioMatrix)
    (st : SessionState) (newId : List Char)
    (h : getScenarioById newId = none) :
    handleScenarioChange getScenarioById st newId = st := by
  simp [handleScenarioChange, h]

/-- Witness for C10: an unresolvable id leaves the populated session
untouched. -/
theorem handleScenarioChange_unknown_noop_witness :
    handleScenarioChange (fun _ => none) populatedState
      "NO_SUCH_SCENARIO".toList = populatedState :=
  handleScenarioChange_unknown_noop (fun _ => none) populatedState
    "NO_SUCH_SCENARIO".toList rfl

/-! ## Fence stripping (`generateStrategicAnalysis`, sanitization)

The source sanitizes the remote text with
`cleanJson.replace(/```json/g, '').replace(/```/g, '').trim()`.
A global regex replace on a literal pattern removes the non-overlapping
occurrences found in a single left-to-right scan; `removeAll` implements
exactly that scan for a literal pattern (occurrences formed by the
removal itself are not re-matched, as with a single-pass `replace`). -/

/-- Single left-to-right scan: `skip` counts pattern characters still to
be consumed after a match at an earlier position. -/
def removeOccAux (pat : List Char) : List Char → Nat → List Char
  | [], _ => []
  | _ :: s, skip + 1 => removeOccAux pat s skip
  | a :: s, 0 =>
    if pat.isPrefixOf (a :: s) then removeOccAux pat s (pat.length - 1)
    else a :: removeOccAux pat s 0

/-- Global single-pass removal of the literal pattern `pat`, the
behaviour of `String.prototype.replace(/pat/g, '')`. -/
def removeAll (pat s : List Char) : List Char := removeOccAux pat s 0

lemma removeOccAux_skip (pat : List Char) :
    ∀ (s : List Char) (k : Nat),
      removeOccAux pat s k = removeAll pat (s.drop k) := by
  intro s
  induction s with
  | nil => intro k; cases k <;> rfl
  | cons a s ih =>
    intro k
    cases k with
    | zero => rfl
    | succ k => exact ih k

lemma removeAll_nil (pat : List Char) : removeAll pat [] = [] := rfl

lemma removeAll_cons (pat : List Char) (a : Char) (s : List Char) :
    removeAll pat (a :: s) =
      if pat.isPrefixOf (a :: s) then
        removeAll pat (s.drop (pat.length - 1))
      else a :: removeAll pat s := by
  have h0 : removeAll pat (a :: s) =
      (if pat.isPrefixOf (a :: s) then removeOccAux pat s (pat.length - 1)
       else a :: removeOccAux pat s 0) := rfl
  rw [h0, removeOccAux_skip pat s (pat.length - 1)]
  rfl

/-- A pattern occurrence cannot contain a character that is not in the
pattern, so a prefix match reaching past `xs` into `c :: ys` is
impossible when `c ∉ pat`. -/
lemma prefix_of_append_sep (c : Char) :
    ∀ (pat xs ys : List Char), c ∉ pat →
      pat <+: (xs ++ c :: ys) → pat <+: xs := by
  intro pat
  induction pat with
  | nil => intro xs ys _ _; exact List.nil_prefix
  | cons q pr ih =>
    intro xs ys hc hp
    cases xs with
    | nil =>
      rcases hp with ⟨t, ht⟩
      simp only [List.nil_append, List.cons_append, List.cons.injEq] at ht
      exact absurd (ht.1 ▸ List.mem_cons_self q pr) hc
    | cons b bs =>
      rcases hp with ⟨t, ht⟩
      simp only [List.cons_append, List.cons.injEq] at ht
      obtain ⟨rfl, ht2⟩ := ht
      have hpr := ih bs ys (fun hm => hc (List.mem_cons_of_mem _ hm)) ⟨t, ht2⟩
      exact List.cons_prefix_cons.mpr ⟨rfl, hpr⟩

/-- Removal steps over a head character that is not in the pattern. -/
lemma removeAll_cons_sep (pat : List Char) (c : Char) (ys : List Char)
    (hpat : pat ≠ []) (hc : c ∉ pat) :
    removeAll pat (c :: ys) = c :: removeAll pat ys := by
  rw [removeAll_cons, if_neg]
  intro hpre
  cases pat with
  | nil => exact hpat rfl
  | cons q pr =>
    rw [List.isPrefixOf_iff_prefix] at hpre
    rcases List.cons_prefix_cons.mp hpre with ⟨rfl, -⟩
    exact hc (List.mem_cons_self _ _)

/-- The single-pass removal distributes over a separator character that
does not occur in the pattern: no occurrence can cross it. -/
lemma removeAll_append_sep_fuel (pat : List Char) (c : Char)
    (hpat : pat ≠ []) (hc : c ∉ pat) :
    ∀ (n : Nat) (xs : List Char), xs.length ≤ n → ∀ (ys : List Char),
      removeAll pat (xs ++ c :: ys) =
        removeAll pat xs ++ c :: removeAll pat ys := by
  intro n
  induction n with
  | zero =>
    intro xs hxs ys
    have hx : xs = [] := List.length_eq_zero.mp (Nat.le_zero.mp hxs)
    subst hx
    rw [List.nil_append, removeAll_nil, List.nil_append,
      removeAll_cons_sep pat c ys hpat hc]
  | succ n ih =>
    intro xs hxs ys
    cases xs with
    | nil =>
      rw [List.nil_append, removeAll_nil, List.nil_append,
        removeAll_cons_sep pat c ys hpat hc]
    | cons a xs =>
      by_cases hpre : pat.isPrefixOf (a :: xs) = true
      · have hpre1 : pat.isPrefixOf ((a :: xs) ++ c :: ys) = true := by
          rw [List.isPrefixOf_iff_prefix] at hpre ⊢
          exact hpre.trans (List.prefix_append _ _)
        rw [List.cons_append, removeAll_cons pat a (xs ++ c :: ys)]
        rw [show ((a :: xs) ++ c :: ys) = a :: (xs ++ c :: ys) from rfl]
          at hpre1
        rw [if_pos hpre1]
        rw [removeAll_cons pat a xs, if_pos hpre]
        have hlen : pat.length - 1 ≤ xs.length := by
          rw [List.isPrefixOf_iff_prefix] at hpre
          have h1 := hpre.length_le
          simp only [List.length_cons] at h1
          omega
        rw [List.drop_append_of_le_length hlen]
        exact ih (xs.drop (pat.length - 1))
          (by simp only [List.length_drop, List.length_cons] at hxs ⊢; omega)
          ys
      · have hpre1 : ¬ pat.isPrefixOf (a :: (xs ++ c :: ys)) = true := by
          intro hx
          apply hpre
          rw [List.isPrefixOf_iff_prefix] at hx ⊢
          exact prefix_of_append_sep c pat (a :: xs) ys hc hx
        rw [List.cons_append, removeAll_cons pat a (xs ++ c :: ys),
          if_neg hpre1]
        rw [removeAll_cons pat a xs, if_neg hpre, List.cons_append]
        rw [ih xs (by simp only [List.length_cons] at hxs; omega) ys]

lemma removeAll_append_sep (pat : List Char) (c : Char)
    (hpat : pat ≠ []) (hc : c ∉ pat) (xs ys : List Char) :
    removeAll pat (xs ++ c :: ys) =
      removeAll pat xs ++ c :: removeAll pat ys :=
  removeAll_append_sep_fuel pat c hpat hc xs.length xs le_rfl ys

/-- Whitespace recognized by `String.prototype.trim` (the JavaScript
WhiteSpace and LineTerminator code points used in practice). -/
def isJsWhitespace (c : Char) : Bool :=
  c = ' ' || c = '\t' || c = '\n' || c = '\r' ||
  c = '\x0b' || c = '\x0c' || c = ' ' || c = '﻿'

/-- Source `.trim()`: drop whitespace from both ends. -/
def trimChars (s : List Char) : List Char :=
  ((s.dropWhile isJsWhitespace).reverse.dropWhile isJsWhitespace).reverse

lemma trimChars_cons_nl (s : List Char) :
    trimChars ('\n' :: s) = trimChars s := by
  unfold trimChars
  rw [List.dropWhile_cons_of_pos (by decide)]

lemma trimChars_append_nl (s : List Char) :
    trimChars (s ++ ['\n']) = trimChars s := by
  unfold trimChars
  rw [List.dropWhile_append]
  by_cases h : (s.dropWhile isJsWhitespace).isEmpty = true
  · rw [if_pos h]
    have hnil : s.dropWhile isJsWhitespace = [] := by
      simpa [List.isEmpty_iff] using h
    rw [hnil]
    rfl
  · rw [if_neg h, List.reverse_append]
    rw [show (['\n'] : List Char).reverse ++
          (s.dropWhile isJsWhitespace).reverse =
        '\n' :: (s.dropWhile isJsWhitespace).reverse from rfl]
    rw [List.dropWhile_cons_of_pos (by decide)]

/-- Literal pattern of the first replace, `/```json/g`. -/
def fenceJsonPat : List Char := "```json".toList

/-- Literal pattern of the second replace, `/```/g`. -/
def fencePat : List Char := "```".toList

/-- Sanitization pipeline of `generateStrategicAnalysis`:
`cleanJson.replace(/```json/g, '').replace(/```/g, '').trim()`. -/
def stripFences (s : List Char) : List Char :=
  trimChars (removeAll fencePat (removeAll fenceJsonPat s))

/-- A payload wrapped in code-fence markers, the formatting wrapper the
remote service may add around the JSON text. -/
def wrapInFences (p : List Char) : List Char :=
  fenceJsonPat ++ '\n' :: (p ++ '\n' :: fencePat)

/-- Fence-stripping a wrapped payload gives exactly the same cleaned text
as stripping the bare payload — for every payload, even one containing
backticks of its own. -/
theorem stripFences_wrap (p : List Char) :
    stripFences (wrapInFences p) = stripFences p := by
  unfold stripFences wrapInFences
  rw [removeAll_append_sep fenceJsonPat '\n' (by decide) (by decide)
    fenceJsonPat (p ++ '\n' :: fencePat)]
  rw [show removeAll fenceJsonPat fenceJsonPat = [] from rfl]
  rw [removeAll_append_sep fenceJsonPat '\n' (by decide) (by decide)
    p fencePat]
  rw [show removeAll fenceJsonPat fencePat = fencePat from rfl]
  rw [List.nil_append]
  rw [removeAll_cons_sep fencePat '\n' _ (by decide) (by decide)]
  rw [removeAll_append_sep fencePat '\n' (by decide) (by decide)
    (removeAll fenceJsonPat p) fencePat]
  rw [show removeAll fencePat fencePat = [] from rfl]
  rw [trimChars_cons_nl]
  rw [show (removeAll fencePat (removeAll fenceJsonPat p) ++ ['\n'] :
        List Char) =
      removeAll fencePat (removeAll fenceJsonPat p) ++ ['\n'] from rfl]
  rw [trimChars_append_nl]

/-! ## Report generation (`generateStrategicAnalysis`, remote phase)

`JSON.parse` is a host built-in, so it enters as a parameter
`parse : List Char → Option Json` over an abstract JSON value tree
(`none` models a parse exception).  The remote exchange enters as
`remote : Except Unit (Option (List Char))`: a thrown error, or a
response whose `text` may be absent/empty.  Both failure sources are
caught by the single `try/catch` of the source, which rethrows the fixed
report error. -/

/-- Abstract JSON value tree, the possible results of `JSON.parse`. -/
inductive Json where
  | null
  | bool (b : Bool)
  | num (q : ℚ)
  | str (s : List Char)
  | arr (elems : List Json)
  | obj (fields : List (List Char × Json))

/-- Error message thrown by the catch-all of the report generator. -/
def reportFailureMsg : List Char :=
  "Failed to generate strategic report.".toList

/-- Fallback body for a falsy `response.text`:
`let cleanJson = response.text || "\x7b\x7d"`. -/
def defaultBody : List Char := "\x7b\x7d".toList

/-- Body actually fed to the sanitizer: the response text, or the
`"\x7b\x7d"` fallback when the text is absent or empty (both falsy). -/
def rawResponseBody : Option (List Char) → List Char
  | none => defaultBody
  | some t => if t = [] then defaultBody else t

/-- Source `generateStrategicAnalysis`, remote/parse phase: on a thrown
remote error or a `JSON.parse` failure the catch block rethrows the fixed
report error; otherwise the parse result is returned as the report, cast
with `as StrategicAnalysisReport` and nothing else. -/
def generateStrategicAnalysis (parse : List Char → Option Json)
    (remote : Except Unit (Option (List Char))) :
    Except (List Char) Json :=
  match remote with
  | .error _ => .error reportFailureMsg
  | .ok r =>
    match parse (stripFences (rawResponseBody r)) with
    | none => .error reportFailureMsg
    | some j => .ok j

/-- Field lookup in a parsed JSON object. -/
def getField (fields : List (List Char × Json)) (key : List Char) :
    Option Json :=
  match fields.find? (fun kv => kv.fst == key) with
  | some kv => some kv.snd
  | none => none

/-- The grade enum of the report schema. -/
def gradeLetters : List (List Char) :=
  ["S".toList, "A".toList, "B".toList, "C".toList, "F".toList]

/-- Modelled from the spec: the explicit schema validation the claim
attributes to the report path — presence of every required report field
and membership of `overallGrade` in the enum S/A/B/C/F (field names as in
the prompt's required structure).  The source itself performs no such
check; this definition only serves to compare the claim against the
code's actual behaviour. -/
def specSchemaValid : Json → Bool
  | Json.obj fields =>
    (getField fields "strengths".toList).isSome &&
    (getField fields "missedOpportunities".toList).isSome &&
    (getField fields "psychologicalTacticsDetected".toList).isSome &&
    (getField fields "confidenceTrajectoryAnalysis".toList).isSome &&
    (getField fields "trainingRecommendations".toList).isSome &&
    (match getField fields "overallGrade".toList with
     | some (Json.str g) => gradeLetters.contains g
     | _ => false)
  | _ => false

/-- `JSON.parse` restricted to the one input of the C3 counterexample:
the text `\x7b\x7d` parses to the empty object, per JSON semantics. -/
def parseEmptyObject : List Char → Option Json :=
  fun s => if s = defaultBody then some (Json.obj []) else none

/-- C3 counterexample: a remote response whose text is the valid JSON
`\x7b\x7d` (which is also what an absent text falls back to) is returned
as a report even though it fails the spec's schema validation — no field
is present and no grade is checked, refuting "no partially-populated or
unvalidated report is ever returned". -/
theorem generateStrategicAnalysis_returns_unvalidated :
    generateStrategicAnalysis parseEmptyObject (.ok (some defaultBody)) =
      .ok (Json.obj []) ∧
    specSchemaValid (Json.obj []) = false := by
  constructor
  · rfl
  · rfl

/-- C3 amended: the report path is all-or-nothing only in the weak sense —
it either fails with the fixed reported error (thrown remote call or text
that is not valid JSON after fence stripping), or returns exactly the
`JSON.parse` value of the fence-stripped body, with no schema validation
of field presence or grade membership. -/
theorem generateStrategicAnalysis_all_or_nothing
    (parse : List Char → Option Json)
    (remote : Except Unit (Option (List Char))) :
    generateStrategicAnalysis parse remote = .error reportFailureMsg ∨
    (∃ r j, remote = .ok r ∧
      parse (stripFences (rawResponseBody r)) = some j ∧
      generateStrategicAnalysis parse remote = .ok j) := by
  cases remote with
  | error e => exact Or.inl rfl
  | ok r =>
    cases hp : parse (stripFences (rawResponseBody r)) with
    | none =>
      exact Or.inl (by simp [generateStrategicAnalysis, hp])
    | some j =>
      exact Or.inr ⟨r, j, rfl, hp, by simp [generateStrategicAnalysis, hp]⟩

/-- C5: a response made of a valid (hence nonempty) payload wrapped in
code-fence markers is cleaned to exactly the same text as the bare
payload, so `JSON.parse` sees identical input and the request parses both
to the same object; and a response whose (cleaned) body is not valid
JSON — `parse` returns `none` — surfaces as the reported invalid-payload
failure of the `catch` block, never as an unhandled exception: the
embedding returns the error value through the function's failure channel.
-/
theorem generateStrategicAnalysis_fences_and_invalid
    (parse : List Char → Option Json) (p t : List Char) (hp : p ≠ []) :
    generateStrategicAnalysis parse (.ok (some (wrapInFences p))) =
      generateStrategicAnalysis parse (.ok (some p)) ∧
    (parse (stripFences (rawResponseBody (some t))) = none →
      generateStrategicAnalysis parse (.ok (some t)) =
        .error reportFailureMsg) := by
  constructor
  · have hw : wrapInFences p ≠ [] := by simp [wrapInFences, fenceJsonPat]
    simp only [generateStrategicAnalysis, rawResponseBody, if_neg hp,
      if_neg hw]
    rw [stripFences_wrap]
  · intro hn
    simp [generateStrategicAnalysis, hn]

/-- `JSON.parse` restricted to the one input of the C5 witness. -/
def parseArrayOne : List Char → Option Json :=
  fun s => if s = "[1]".toList then some (Json.arr [Json.num 1]) else none

/-- Witness for C5: the fenced and the bare payload `[1]` give the same
parse outcome, and the unparsable body `oops` gives the reported failure.
-/
theorem generateStrategicAnalysis_fences_witness :
    generateStrategicAnalysis parseArrayOne
        (.ok (some (wrapInFences "[1]".toList))) =
      generateStrategicAnalysis parseArrayOne (.ok (some "[1]".toList)) ∧
    generateStrategicAnalysis parseArrayOne (.ok (some "oops".toList)) =
      .error reportFailureMsg := by
  constructor
  · exact (generateStrategicAnalysis_fences_and_invalid parseArrayOne
      "[1]".toList "oops".toList (by decide)).1
  · exact (generateStrategicAnalysis_fences_and_invalid parseArrayOne
      "[1]".toList "oops".toList (by decide)).2 rfl
